import Mathlib

/-!
Shallow embedding of `src/test-codebase/database.py` (class `DatabaseManager`)
and proofs of the specification claims about it.

The Python class wraps sqlite3: `connect` lazily opens a connection and sets
`row_factory = sqlite3.Row`, `execute_query` ensures a connection, runs the
query (with the params dict only when it is truthy) and returns
`cursor.fetchall()`, and `close` closes and clears the connection.

The sqlite3 library is external to the repository, so it is modelled as an
abstract `Engine` supplying the outcome of `sqlite3.connect` and of
`cursor.execute` + `cursor.fetchall`.  Connection handles carry a numeric
identity drawn from a fresh counter, and the set of handles the manager has
opened and not yet closed is tracked in a `live` list, so that claims about
connection identity and about the number of live handles can be stated.
-/

/-- Values stored in parameter dicts and result rows (Python `Any`, restricted
to the shapes sqlite3 actually exchanges). -/
inductive Value where
  | intV (n : Int)
  | strV (s : String)
  | nullV
deriving DecidableEq

/-- Result-row factory of a sqlite3 connection.  `sqliteRow` is `sqlite3.Row`,
which makes rows addressable by column name. -/
inductive RowFactory where
  | default
  | sqliteRow
deriving DecidableEq

/-- A sqlite3 connection handle: a fresh identity plus its row factory. -/
structure Conn where
  id : Nat
  row_factory : RowFactory
deriving DecidableEq

/-- A parameter dict (`Dict[str, Any]`): an association list. -/
def Params := List (String × Value)
deriving DecidableEq

/-- One result row as returned under `sqlite3.Row`: column name to value. -/
def Row := List (String × Value)
deriving DecidableEq

/-- Errors raised by the underlying sqlite3 engine, split into the two kinds
the specification names. -/
inductive PyError where
  | connectionError (msg : String)
  | queryError (msg : String)
deriving DecidableEq

/-- The external sqlite3 engine, abstracted: outcome of `sqlite3.connect(path)`
and of `cursor.execute(...)` + `cursor.fetchall()` with and without a params
argument. -/
structure Engine where
  openResult : String → Except PyError Unit
  execWithParams : Conn → String → Params → Except PyError (List Row)
  execNoParams : Conn → String → Except PyError (List Row)

/-- The `DatabaseManager` object state: `self.db_path` and `self.connection`
(`Optional[sqlite3.Connection]`, initially `None`). -/
structure DatabaseManager where
  db_path : String
  connection : Option Conn
deriving DecidableEq

/-- Full system state: the manager object, the fresh-handle counter of the
engine, and the identities of handles opened by this manager and not yet
closed. -/
structure SysState where
  mgr : DatabaseManager
  fresh : Nat
  live : List Nat
deriving DecidableEq

/-- State right after `DatabaseManager(db_path)`: `self.db_path = db_path`,
`self.connection = None`, no live handle. -/
def initState (db_path : String) : SysState :=
  { mgr := { db_path := db_path, connection := none }, fresh := 0, live := [] }

/-- Python truthiness of the `params` argument (`if params:`): `None` and the
empty dict are falsy, a non-empty dict is truthy. -/
def dictTruthy : Option Params → Bool
  | none => false
  | some p => !List.isEmpty p

/-- Embedding of `DatabaseManager.connect` (database.py lines 10-15):
`if not self.connection:` open a new connection to `self.db_path` (raising if
the engine refuses), then set `row_factory = sqlite3.Row`; return the held
connection.  Raises are returned as `.error` in the first component; the
second component is the state after the call (unchanged on failure, because
the assignment to `self.connection` follows a successful open). -/
def connectS (eng : Engine) (s : SysState) : Except PyError Conn × SysState :=
  match s.mgr.connection with
  | some c => (.ok c, s)
  | none =>
    match eng.openResult s.mgr.db_path with
    | .error e => (.error e, s)
    | .ok _ =>
      let c : Conn := { id := s.fresh, row_factory := .sqliteRow }
      (.ok c,
        { mgr := { s.mgr with connection := some c },
          fresh := s.fresh + 1,
          live := s.live ++ [s.fresh] })

/-- Embedding of `DatabaseManager.execute_query` (database.py lines 17-27):
`conn = self.connect()`, then `cursor.execute(query, params)` when `params` is
truthy, else `cursor.execute(query)`, then `return cursor.fetchall()`.  An
error from `connect` or from the engine propagates as `.error`; the second
component is the state after the call. -/
def execute_queryS (eng : Engine) (s : SysState) (query : String)
    (params : Option Params) : Except PyError (List Row) × SysState :=
  match connectS eng s with
  | (.error e, s1) => (.error e, s1)
  | (.ok conn, s1) =>
    if dictTruthy params then
      (eng.execWithParams conn query ((Option.getD params [])), s1)
    else
      (eng.execNoParams conn query, s1)

/-- Embedding of `DatabaseManager.close` (database.py lines 29-33):
`if self.connection:` close it (removing the handle from the live set) and set
`self.connection = None`; otherwise do nothing.  The method is total. -/
def closeS (s : SysState) : SysState :=
  match s.mgr.connection with
  | none => s
  | some c =>
    { mgr := { s.mgr with connection := none },
      fresh := s.fresh,
      live := List.erase s.live c.id }

/-- One public API call on the manager, with an arbitrary engine outcome and
arbitrary arguments. -/
inductive Step : SysState → SysState → Prop where
  | connect (eng : Engine) (s : SysState) : Step s (connectS eng s).2
  | exec (eng : Engine) (s : SysState) (q : String) (p : Option Params) :
      Step s (execute_queryS eng s q p).2
  | close (s : SysState) : Step s (closeS s)

/-- States reachable from a given state by any sequence of API calls. -/
def Reachable : SysState → SysState → Prop :=
  Relation.ReflTransGen Step

/-- The connection invariant: either no connection is held and no handle is
live, or the held connection is the single live handle and is the most
recently opened one (its identity is the last allocated). -/
def InvP (s : SysState) : Prop :=
  (s.mgr.connection = none ∧ s.live = []) ∨
  (∃ c, s.mgr.connection = some c ∧ s.live = [c.id] ∧ c.id + 1 = s.fresh)

/-- A concrete engine on which every operation succeeds. -/
def engOK : Engine :=
  { openResult := fun _ => .ok ()
    execWithParams := fun _ _ _ => .ok [[("id", .intV 2), ("name", .strV "b")]]
    execNoParams := fun _ _ => .ok [[("one", .intV 1)]] }

/-- A concrete engine on which connecting succeeds but every query is rejected
as malformed. -/
def engQueryFail : Engine :=
  { openResult := fun _ => .ok ()
    execWithParams := fun _ _ _ => .error (.queryError "syntax error")
    execNoParams := fun _ _ => .error (.queryError "syntax error") }

/-- A concrete engine on which the data source cannot be opened. -/
def engOpenFail : Engine :=
  { openResult := fun p => .error (.connectionError p)
    execWithParams := fun _ _ _ => .error (.connectionError "no connection")
    execNoParams := fun _ _ => .error (.connectionError "no connection") }

theorem execute_queryS_snd (eng : Engine) (s : SysState) (q : String)
    (p : Option Params) : (execute_queryS eng s q p).2 = (connectS eng s).2 := by
  rcases h : connectS eng s with ⟨e | c, s1⟩
  · simp [execute_queryS, h]
  · by_cases hp : dictTruthy p <;> simp [execute_queryS, h, hp]

theorem connectS_preserves_InvP (eng : Engine) (s : SysState) (h : InvP s) :
    InvP (connectS eng s).2 := by
  rcases hc : s.mgr.connection with _ | c
  · rcases ho : eng.openResult s.mgr.db_path with e | u
    · simp only [connectS, hc, ho]
      exact h
    · rcases h with ⟨_, hlive⟩ | ⟨c, hcc, _⟩
      · simp only [connectS, hc, ho, hlive]
        exact Or.inr ⟨⟨s.fresh, .sqliteRow⟩, rfl, rfl, rfl⟩
      · rw [hc] at hcc; cases hcc
  · simp only [connectS, hc]
    exact h

theorem step_preserves_InvP (s t : SysState) (hst : Step s t) (h : InvP s) :
    InvP t := by
  cases hst with
  | connect eng s => exact connectS_preserves_InvP eng s h
  | exec eng s q p =>
    rw [execute_queryS_snd]
    exact connectS_preserves_InvP eng s h
  | close s =>
    rcases hc : s.mgr.connection with _ | c
    · simp only [closeS, hc]
      exact h
    · rcases h with ⟨hcc, _⟩ | ⟨c₂, hcc, hlive, _⟩
      · rw [hc] at hcc; cases hcc
      · rw [hc] at hcc
        injection hcc with hcc
        subst hcc
        simp only [closeS, hc, hlive]
        exact Or.inl ⟨rfl, by simp⟩

theorem reachable_InvP (path : String) (t : SysState)
    (h : Reachable (initState path) t) : InvP t := by
  induction h with
  | refl => exact Or.inl ⟨rfl, rfl⟩
  | tail _ hstep ih => exact step_preserves_InvP _ _ hstep ih

/-- C1: in every state reachable from a freshly constructed manager by any
sequence of connect / execute_query / close calls, at most one handle opened
by the manager is live, and the connection field is either absent (with no
live handle) or holds the single live, most recently opened handle. -/
theorem connection_invariant (path : String) (t : SysState)
    (h : Reachable (initState path) t) :
    t.live.length ≤ 1 ∧ InvP t := by
  have hI := reachable_InvP path t h
  refine ⟨?_, hI⟩
  rcases hI with ⟨_, hlive⟩ | ⟨c, _, hlive, _⟩ <;> rw [hlive] <;> simp

/-- Witness for C1 at a concrete one-step trace (a successful connect). -/
theorem connection_invariant_witness :
    ((connectS engOK (initState "app.db")).2).live.length ≤ 1 ∧
      InvP (connectS engOK (initState "app.db")).2 :=
  connection_invariant "app.db" _
    (Relation.ReflTransGen.single (Step.connect engOK (initState "app.db")))

/-- C2: connect is idempotent — if a connect call returned connection `c`,
an immediately following connect call (no intervening close) returns the same
handle `c` and leaves the whole state unchanged, so no new connection is
opened. -/
theorem connect_idempotent (eng : Engine) (s : SysState) (c : Conn)
    (h : (connectS eng s).1 = .ok c) :
    (connectS eng (connectS eng s).2).1 = .ok c ∧
      (connectS eng (connectS eng s).2).2 = (connectS eng s).2 := by
  rcases hc : s.mgr.connection with _ | c₀
  · rcases ho : eng.openResult s.mgr.db_path with e | u
    · simp only [connectS, hc, ho] at h
      cases h
    · simp only [connectS, hc, ho] at h
      injection h with h
      subst h
      have hstate : (connectS eng s).2 =
          { mgr := { s.mgr with
              connection := some ⟨s.fresh, RowFactory.sqliteRow⟩ },
            fresh := s.fresh + 1, live := s.live ++ [s.fresh] } := by
        simp [connectS, hc, ho]
      rw [hstate]
      exact ⟨rfl, rfl⟩
  · simp only [connectS, hc] at h
    injection h with h
    subst h
    simp [connectS, hc]

/-- Witness for C2 on the always-succeeding engine. -/
theorem connect_idempotent_witness :
    (connectS engOK (connectS engOK (initState "app.db")).2).1 =
        .ok ⟨0, .sqliteRow⟩ ∧
      (connectS engOK (connectS engOK (initState "app.db")).2).2 =
        (connectS engOK (initState "app.db")).2 :=
  connect_idempotent engOK (initState "app.db") ⟨0, .sqliteRow⟩ rfl

/-- C3: after close the connection reference is `None`, and a subsequent
execute_query on the closed manager transparently reconnects and succeeds
whenever the data source at the stored path can still be opened and accepts
the query. -/
theorem close_clears_then_reconnect (s : SysState) (eng : Engine) (q : String)
    (rows : List Row)
    (hopen : eng.openResult s.mgr.db_path = .ok ())
    (hexec : eng.execNoParams ⟨(closeS s).fresh, .sqliteRow⟩ q = .ok rows) :
    (closeS s).mgr.connection = none ∧
      (execute_queryS eng (closeS s) q none).1 = .ok rows := by
  have hnone : (closeS s).mgr.connection = none := by
    rcases hc : s.mgr.connection with _ | c <;> simp [closeS, hc]
  have hpath : (closeS s).mgr.db_path = s.mgr.db_path := by
    rcases hc : s.mgr.connection with _ | c <;> simp [closeS, hc]
  refine ⟨hnone, ?_⟩
  simp only [execute_queryS, connectS, hnone, hpath, hopen, dictTruthy]
  simpa using hexec

/-- Witness for C3: close after a connect, then query again successfully. -/
theorem close_clears_then_reconnect_witness :
    (closeS (connectS engOK (initState "app.db")).2).mgr.connection = none ∧
      (execute_queryS engOK (closeS (connectS engOK (initState "app.db")).2)
          "SELECT 1" none).1 = .ok [[("one", .intV 1)]] :=
  close_clears_then_reconnect (connectS engOK (initState "app.db")).2 engOK
    "SELECT 1" [[("one", .intV 1)]] rfl rfl

/-- C4 as stated is false: on a manager whose connection is absent, a failing
execute_query first opens a connection (via the implicit connect), so the
connection field before the failed call (`none`) differs from the field after
it (`some`).  Concretely, on a fresh manager and an engine that rejects the
query, the call raises a QueryError yet changes the connection field. -/
theorem query_failure_changes_fresh_manager :
    (execute_queryS engQueryFail (initState "app.db") "SELEKT * FROM t"
        none).1 = .error (.queryError "syntax error") ∧
      (execute_queryS engQueryFail (initState "app.db") "SELEKT * FROM t"
          none).2.mgr.connection ≠ (initState "app.db").mgr.connection := by
  constructor
  · rfl
  · decide

/-- C4 amended: on a manager that already holds a connection, a rejected query
makes execute_query raise exactly the engine's QueryError, propagated to the
caller unaltered, and the whole state — in particular the held connection —
is unchanged by the failed call. -/
theorem query_failure_preserves_connection (eng : Engine) (s : SysState)
    (q : String) (p : Option Params) (c : Conn) (e : PyError)
    (hconn : s.mgr.connection = some c)
    (hexec : (if dictTruthy p then
        eng.execWithParams c q (Option.getD p [])
      else eng.execNoParams c q) = .error e) :
    (execute_queryS eng s q p).1 = .error e ∧
      (execute_queryS eng s q p).2 = s := by
  simp only [execute_queryS, connectS, hconn]
  by_cases hp : dictTruthy p <;> simp [hp] at hexec ⊢ <;> exact hexec

/-- Witness for the amended C4: a connected manager, a rejected query. -/
theorem query_failure_preserves_connection_witness :
    (execute_queryS engQueryFail (connectS engOK (initState "app.db")).2
        "SELEKT * FROM t" none).1 = .error (.queryError "syntax error") ∧
      (execute_queryS engQueryFail (connectS engOK (initState "app.db")).2
          "SELEKT * FROM t" none).2 =
        (connectS engOK (initState "app.db")).2 :=
  query_failure_preserves_connection engQueryFail
    (connectS engOK (initState "app.db")).2 "SELEKT * FROM t" none
    ⟨0, .sqliteRow⟩ (.queryError "syntax error") rfl rfl

/-- C5: close never fails (it is a total function in the embedding, matching
the raise-free Python body); when no connection is held it leaves the state
unchanged, and closing twice equals closing once. -/
theorem close_noop_idempotent (s : SysState) :
    (s.mgr.connection = none → closeS s = s) ∧
      closeS (closeS s) = closeS s := by
  constructor
  · intro h
    simp [closeS, h]
  · rcases hc : s.mgr.connection with _ | c
    · simp [closeS, hc]
    · simp [closeS, hc]

/-- Witness for C5 on a manager that never connected. -/
theorem close_noop_idempotent_witness :
    closeS (initState "app.db") = initState "app.db" ∧
      closeS (closeS (initState "app.db")) = closeS (initState "app.db") :=
  ⟨(close_noop_idempotent (initState "app.db")).1 rfl,
    (close_noop_idempotent (initState "app.db")).2⟩

/-- C6: on a manager without a connection, execute_query first connects (the
state afterwards holds a connection whose row factory is `sqlite3.Row`, so
rows are addressable by column name), runs the query with the given non-empty
named-parameter map, and returns exactly the engine's full, ordered row
list. -/
theorem execute_query_connects_and_returns_rows (eng : Engine) (s : SysState)
    (q : String) (p : Params) (rows : List Row)
    (hconn : s.mgr.connection = none)
    (hopen : eng.openResult s.mgr.db_path = .ok ())
    (hne : List.isEmpty p = false)
    (hexec : eng.execWithParams ⟨s.fresh, .sqliteRow⟩ q p = .ok rows) :
    (execute_queryS eng s q (some p)).1 = .ok rows ∧
      (execute_queryS eng s q (some p)).2.mgr.connection =
        some ⟨s.fresh, .sqliteRow⟩ := by
    simp only [execute_queryS, connectS, hconn, hopen, dictTruthy, hne]
    simpa using hexec

/-- Witness for C6: an id-filtering query with a one-entry parameter map. -/
theorem execute_query_connects_and_returns_rows_witness :
    (execute_queryS engOK (initState "app.db") "SELECT * FROM t WHERE id = :id"
        (some [("id", .intV 2)])).1 =
          .ok [[("id", .intV 2), ("name", .strV "b")]] ∧
      (execute_queryS engOK (initState "app.db")
          "SELECT * FROM t WHERE id = :id"
          (some [("id", .intV 2)])).2.mgr.connection =
        some ⟨0, .sqliteRow⟩ :=
  execute_query_connects_and_returns_rows engOK (initState "app.db")
    "SELECT * FROM t WHERE id = :id" [("id", .intV 2)]
    [[("id", .intV 2), ("name", .strV "b")]] rfl rfl rfl rfl

/-- C7: because `if params:` treats the empty dict as falsy, execute_query
with an empty parameter map is literally the same computation — same result,
same state — as execute_query with no parameters at all, for every engine,
state and query. -/
theorem empty_params_same_as_none (eng : Engine) (s : SysState) (q : String) :
    execute_queryS eng s q (some []) = execute_queryS eng s q none := by
  rfl

/-- C8: `db_path` is never written after construction — connect,
execute_query and close all leave it exactly as it was. -/
theorem db_path_immutable (eng : Engine) (s : SysState) (q : String)
    (p : Option Params) :
    (connectS eng s).2.mgr.db_path = s.mgr.db_path ∧
      (execute_queryS eng s q p).2.mgr.db_path = s.mgr.db_path ∧
      (closeS s).mgr.db_path = s.mgr.db_path := by
  have hcon : (connectS eng s).2.mgr.db_path = s.mgr.db_path := by
    rcases hc : s.mgr.connection with _ | c
    · rcases ho : eng.openResult s.mgr.db_path with e | u <;>
        simp [connectS, hc, ho]
    · simp [connectS, hc]
  refine ⟨hcon, ?_, ?_⟩
  · rw [execute_queryS_snd]
    exact hcon
  · rcases hc : s.mgr.connection with _ | c <;> simp [closeS, hc]

/-- C9: connect is atomic on failure — on a manager with no connection, if
opening the data source fails, connect propagates exactly that error and the
state (in particular `self.connection`) is unchanged, because the assignment
to `self.connection` happens only after a successful open. -/
theorem connect_atomic_on_failure (eng : Engine) (s : SysState) (e : PyError)
    (hconn : s.mgr.connection = none)
    (hopen : eng.openResult s.mgr.db_path = .error e) :
    connectS eng s = (.error e, s) := by
  simp [connectS, hconn, hopen]

/-- Witness for C9 on the engine whose open always fails. -/
theorem connect_atomic_on_failure_witness :
    connectS engOpenFail (initState "missing.db") =
      (.error (.connectionError "missing.db"), initState "missing.db") :=
  connect_atomic_on_failure engOpenFail (initState "missing.db")
    (.connectionError "missing.db") rfl rfl

/-- C10: execute_query never closes or replaces an existing connection — on a
manager that holds connection `c`, the state after the call (whether the
query succeeded or raised) is exactly the state before, so the same handle is
still held; only close removes it. -/
theorem execute_query_keeps_connection (eng : Engine) (s : SysState)
    (q : String) (p : Option Params) (c : Conn)
    (hconn : s.mgr.connection = some c) :
    (execute_queryS eng s q p).2 = s ∧
      (execute_queryS eng s q p).2.mgr.connection = some c := by
  have h2 : (execute_queryS eng s q p).2 = s := by
    rw [execute_queryS_snd]
    simp [connectS, hconn]
  refine ⟨h2, ?_⟩
  rw [h2]
  exact hconn

/-- Witness for C10: a failing query on a connected manager keeps the
handle. -/
theorem execute_query_keeps_connection_witness :
    (execute_queryS engQueryFail (connectS engOK (initState "app.db")).2
        "DROP TABLE nope" none).2 = (connectS engOK (initState "app.db")).2 ∧
      (execute_queryS engQueryFail (connectS engOK (initState "app.db")).2
          "DROP TABLE nope" none).2.mgr.connection =
        some ⟨0, .sqliteRow⟩ :=
  execute_query_keeps_connection engQueryFail
    (connectS engOK (initState "app.db")).2 "DROP TABLE nope" none
    ⟨0, .sqliteRow⟩ rfl
